import Mathlib

/-!
Verification development for `photo_video_renamer.py`: a batch pipeline that
scans a directory tree for photos and videos, resolves per-file metadata
(capture timestamp, pixel dimensions), hashes file content, and relocates each
file to `<dest>/<YYYY>/<MonthName>/<YYYY-MM-DD_HH.MM.SS.ssss_WxH_HASH>.<ext>`.

The Python source is embedded shallowly:
* the filesystem is an explicit finite set of existing paths (`List String`);
* external collaborators (PIL / ffprobe metadata extraction, file reading,
  copy/move success) are oracles packaged in environment structures, so the
  control flow of each Python function is translated line by line over them;
* `datetime` values are a record of seven `Nat` fields;
* fallible steps return `Option` / explicit outcome constructors.
-/

namespace PVR

/-! ### Python string primitives used by the source -/

/-- Decimal value of a list of ASCII digit characters (most significant first). -/
def digitsVal (ds : List Char) : Nat :=
  ds.foldl (fun a c => a * 10 + (c.toNat - 48)) 0

/-- Python `str.zfill(w)` for non-negative content: left-pad with `'0'` to
width `w`. -/
def zfill (w : Nat) (s : String) : String :=
  if w ≤ s.length then s else String.mk (List.replicate (w - s.length) '0') ++ s

/-- Python `str.lower()` restricted to ASCII (the only characters appearing in
the extensions and fixed strings the source lowercases). -/
def lowerStr (s : String) : String :=
  String.mk (s.toList.map Char.toLower)

/-- Python `str.split(sep)` for a one-character separator: split at every
occurrence, keeping empty fields (`"".split(c) == [""]`). -/
def splitOnChar (c : Char) : List Char → List (List Char)
  | [] => [[]]
  | x :: xs =>
    let r := splitOnChar c xs
    if x = c then [] :: r
    else
      match r with
      | [] => [[x]]
      | y :: ys => (x :: y) :: ys

/-- Python `str.strip()`: drop whitespace from both ends. -/
def trimChars (l : List Char) : List Char :=
  ((l.dropWhile Char.isWhitespace).reverse.dropWhile Char.isWhitespace).reverse

/-- Python `s.startswith('.')`. -/
def startsWithDot (s : String) : Bool :=
  match s.toList with
  | c :: _ => c = '.'
  | [] => false

/-- Python `os.path.basename` (POSIX): the part after the last `'/'`. -/
def basename (p : String) : String :=
  String.mk ((splitOnChar '/' p.toList).getLastD [])

/-- Index of the last occurrence of `c` in `l`, if any. -/
def lastIdxOfAux (c : Char) : List Char → Nat → Option Nat → Option Nat
  | [], _, acc => acc
  | x :: xs, i, acc => lastIdxOfAux c xs (i + 1) (if x = c then some i else acc)

def lastIdxOf (c : Char) (l : List Char) : Option Nat :=
  lastIdxOfAux c l 0 none

/-- Split index of Python `os.path.splitext` (POSIX): position of the last
`'.'`, provided it lies after the last `'/'` and some character strictly
between the last `'/'` and that dot is not a dot (so `".bashrc"`, `"..."` have
no extension). -/
def pySplitextIdx (l : List Char) : Option Nat :=
  match lastIdxOf '.' l with
  | none => none
  | some di =>
    let si := match lastIdxOf '/' l with
      | none => 0
      | some s => s + 1
    if si ≤ di ∧ ((l.drop si).take (di - si)).any (· ≠ '.') then some di else none

/-- Python `os.path.splitext` (POSIX): `(root, ext)` with `ext` containing the
leading dot, or `(p, "")` when there is no extension. -/
def pySplitext (p : String) : String × String :=
  let l := p.toList
  match pySplitextIdx l with
  | none => (p, "")
  | some di => (String.mk (l.take di), String.mk (l.drop di))

/-- Whether a string's last character is `'/'` (Python `a.endswith('/')` for
the join below). -/
def endsWithSlash (s : String) : Bool :=
  s.toList.getLast? = some '/'

/-- Python `os.path.join(a, b)` (POSIX) for a relative second component. -/
def pyJoin (a b : String) : String :=
  if a = "" then b else if endsWithSlash a then a ++ b else a ++ "/" ++ b

/-- Python slicing `s[:n]`. -/
def take_slice (s : String) (n : Nat) : String :=
  String.mk (s.toList.take n)

/-! ### `datetime` values -/

/-- A Python `datetime.datetime` value (naive), seven numeric fields. -/
structure PyDateTime where
  year : Nat
  month : Nat
  day : Nat
  hour : Nat
  minute : Nat
  second : Nat
  microsecond : Nat
deriving DecidableEq, Repr

/-- The field ranges `datetime.datetime` enforces at construction
(`MINYEAR = 1`, `MAXYEAR = 9999`). -/
def PyDateTime.Valid (t : PyDateTime) : Prop :=
  1 ≤ t.year ∧ t.year ≤ 9999 ∧ 1 ≤ t.month ∧ t.month ≤ 12 ∧ 1 ≤ t.day ∧
    t.day ≤ 31 ∧ t.hour ≤ 23 ∧ t.minute ≤ 59 ∧ t.second ≤ 59 ∧
    t.microsecond ≤ 999999

instance (t : PyDateTime) : Decidable t.Valid := by
  unfold PyDateTime.Valid; infer_instance

/-- Mixed-radix encoding of a datetime; for in-range values this is an
order-isomorphic copy of Python's field-lexicographic `datetime` order, so it
serves as the sort key. -/
def PyDateTime.key (t : PyDateTime) : Nat :=
  (((((t.year * 13 + t.month) * 32 + t.day) * 24 + t.hour) * 60 + t.minute) *
      60 + t.second) * 1000000 + t.microsecond

/-- Field-lexicographic strict order, exactly how Python compares two
`datetime` values. -/
def PyDateTime.lexLt (a b : PyDateTime) : Prop :=
  a.year < b.year ∨ (a.year = b.year ∧
    (a.month < b.month ∨ (a.month = b.month ∧
      (a.day < b.day ∨ (a.day = b.day ∧
        (a.hour < b.hour ∨ (a.hour = b.hour ∧
          (a.minute < b.minute ∨ (a.minute = b.minute ∧
            (a.second < b.second ∨ (a.second = b.second ∧
              a.microsecond < b.microsecond)))))))))))

instance (a b : PyDateTime) : Decidable (a.lexLt b) := by
  unfold PyDateTime.lexLt; infer_instance

theorem PyDateTime.key_lt_iff_lexLt {a b : PyDateTime}
    (ha : a.Valid) (hb : b.Valid) : a.key < b.key ↔ a.lexLt b := by
  obtain ⟨_, _, _, _, _, _, _, _, _, _⟩ := ha
  obtain ⟨_, _, _, _, _, _, _, _, _, _⟩ := hb
  unfold PyDateTime.key PyDateTime.lexLt
  constructor <;> intro h <;> omega

theorem PyDateTime.key_inj {a b : PyDateTime}
    (ha : a.Valid) (hb : b.Valid) (h : a.key = b.key) : a = b := by
  obtain ⟨_, _, _, _, _, _, _, _, _, _⟩ := ha
  obtain ⟨_, _, _, _, _, _, _, _, _, _⟩ := hb
  unfold PyDateTime.key at h
  obtain ⟨ay, amo, ad, ah, ami, as_, au⟩ := a
  obtain ⟨by_, bmo, bd, bh, bmi, bs, bu⟩ := b
  simp only [PyDateTime.mk.injEq]
  simp only at *
  omega

/-! ### Name builder (`copy_and_rename_file`, lines 157-184) -/

/-- `datetime.strftime("%B")`: full English month name (locale-invariant in
this model, matching the source's intent of readable month folders). -/
def monthName (m : Nat) : String :=
  ["January", "February", "March", "April", "May", "June", "July",
   "August", "September", "October", "November", "December"].getD (m - 1) ""

/-- `date_taken.strftime("%Y-%m-%d_%H.%M.%S")`.  `%Y` is modelled as a 4-digit
zero-padded year, exact for the years `1000-9999` the naming theorems range
over. -/
def strftime_stem (t : PyDateTime) : String :=
  zfill 4 (toString t.year) ++ "-" ++ zfill 2 (toString t.month) ++ "-" ++
    zfill 2 (toString t.day) ++ "_" ++ zfill 2 (toString t.hour) ++ "." ++
    zfill 2 (toString t.minute) ++ "." ++ zfill 2 (toString t.second)

/-- Lines 172-175: `str(microsecond).zfill(6)[:4]` appended after a dot. -/
def date_str (t : PyDateTime) : String :=
  strftime_stem t ++ "." ++ take_slice (zfill 6 (toString t.microsecond)) 4

/-- Lines 177-180: `os.path.join(output_dir, year, month)`. -/
def structured_dir (output_dir : String) (t : PyDateTime) : String :=
  pyJoin (pyJoin output_dir (zfill 4 (toString t.year))) (monthName t.month)

/-- Line 183: `f"{date_str}_{width}x{height}_{file_hash}{file_ext}"`. -/
def new_filename (t : PyDateTime) (width height : Nat)
    (file_hash file_ext : String) : String :=
  date_str t ++ "_" ++ toString width ++ "x" ++ toString height ++ "_" ++
    file_hash ++ file_ext

/-- Line 184: the canonical destination path computed before any
collision handling. -/
def canonical_new_path (output_dir : String) (t : PyDateTime)
    (width height : Nat) (file_hash file_ext : String) : String :=
  pyJoin (structured_dir output_dir t) (new_filename t width height file_hash file_ext)

/-! ### Filesystem state and environment oracles

The filesystem is the set of currently existing paths (files and directories
alike), as a `List String` used as a finite set.  External effects the source
delegates to libraries are oracles: `metadata` is the combined result of
`get_file_metadata` (`None, None, None` on failure becomes `none`), `fileHash`
the result of `generate_hash`, and `copyOk` / `moveOk` whether
`shutil.copy2` / `shutil.move` raises for a given source/destination pair. -/

structure Env where
  metadata : String → Option (PyDateTime × Nat × Nat)
  fileHash : String → String
  copyOk : String → String → Bool
  moveOk : String → String → Bool

/-- Per-file outcome reported by `copy_and_rename_file` (its printed line plus
returned boolean, with the destination path it names). -/
inductive FileOutcome where
  | metadataFailure
  | skippedExists (dest : String)
  | wouldCopy (dest : String)
  | wouldMove (dest : String)
  | copied (dest : String)
  | moved (dest : String)
  | copyError (dest : String)
  | moveError (dest : String)
deriving DecidableEq, Repr

/-- The decision a `FileOutcome` reflects: which operation was chosen for which
destination, ignoring whether it was previewed, performed, or failed mid-way. -/
def FileOutcome.action : FileOutcome → FileOutcome
  | .metadataFailure => .metadataFailure
  | .skippedExists d => .skippedExists d
  | .wouldCopy d => .wouldCopy d
  | .copied d => .wouldCopy d
  | .copyError d => .wouldCopy d
  | .wouldMove d => .wouldMove d
  | .moved d => .wouldMove d
  | .moveError d => .wouldMove d

/-- Lines 196-201: the counter-suffix collision loop.  The Python `while`
loop is unbounded; since each candidate name is distinct and the filesystem is
finite it terminates, modelled here with fuel `fs.length + 1` (enough to reach
a free name).  The loop rebuilds the candidate from
`splitext(original_new_path)[0]` and a 3-digit counter. -/
def collision_loop (fs : List String) (name_without_ext file_ext : String) :
    Nat → Nat → String → String
  | 0, _, new_path => new_path
  | fuel + 1, counter, new_path =>
    if new_path ∈ fs then
      collision_loop fs name_without_ext file_ext fuel (counter + 1)
        (name_without_ext ++ "_" ++ zfill 3 (toString counter) ++ file_ext)
    else new_path

/-- Lines 159-184 of `copy_and_rename_file` as a function: the destination
path computed for a file from its resolved metadata, content hash and
lower-cased extension (`none` when metadata resolution fails). -/
def computed_dest (env : Env) (file_path output_dir : String) : Option String :=
  (env.metadata file_path).map fun m =>
    pyJoin (structured_dir output_dir m.1)
      (new_filename m.1 m.2.1 m.2.2 (env.fileHash file_path)
        (lowerStr (pySplitext (basename file_path)).2))

/-- Lines 157-222, `copy_and_rename_file`: returns the updated filesystem, the
Python boolean result, and the reported outcome.  `shutil.copy2` adds the
destination; `shutil.move` removes the source and adds the destination;
`os.makedirs(structured_dir, exist_ok=True)` adds the directory path; a copy or
move that raises leaves the file set as it was after the `makedirs`. -/
def copy_and_rename_file (env : Env) (fs : List String)
    (file_path output_dir : String) (dry_run in_place : Bool) :
    List String × Bool × FileOutcome :=
  let filename := basename file_path
  let file_ext := lowerStr (pySplitext filename).2
  match env.metadata file_path with
  | none => (fs, false, .metadataFailure)
  | some (date_taken, width, height) =>
    let file_hash := env.fileHash file_path
    let sdir := structured_dir output_dir date_taken
    let new_path := pyJoin sdir (new_filename date_taken width height file_hash file_ext)
    if new_path ∈ fs then
      (fs, true, .skippedExists new_path)
    else
      let final_path :=
        collision_loop fs (pySplitext new_path).1 file_ext (fs.length + 1) 1 new_path
      if dry_run then
        (fs, true, if in_place then .wouldMove final_path else .wouldCopy final_path)
      else
        let fs1 := fs.insert sdir
        if in_place then
          if env.moveOk file_path final_path then
            ((fs1.erase file_path).insert final_path, true, .moved final_path)
          else (fs1, false, .moveError final_path)
        else
          if env.copyOk file_path final_path then
            (fs1.insert final_path, true, .copied final_path)
          else (fs1, false, .copyError final_path)

/-! ### Batch orchestration (`process_directory`, lines 238-297) -/

/-- Model of Python `int(s)`: strip surrounding whitespace, optional sign,
then a non-empty run of decimal digits.  (Underscore digit grouping, legal in
Python, is not modelled; no claim depends on it.) -/
def pyIntOfString (s : String) : Option Int :=
  let cs := trimChars s.toList
  let signDigits : Bool × List Char :=
    match cs with
    | '-' :: rest => (true, rest)
    | '+' :: rest => (false, rest)
    | _ => (false, cs)
  if signDigits.2 ≠ [] ∧ signDigits.2.all (·.isDigit) then
    some (if signDigits.1 then -(digitsVal signDigits.2 : Int)
          else (digitsVal signDigits.2 : Int))
  else none

/-- Line 265: `start_year, start_month = map(int, start_year_month.split('/'))`;
any other shape raises `ValueError`. -/
def parse_year_month (s : String) : Option (Int × Int) :=
  match (splitOnChar '/' s.toList).map (fun cs => pyIntOfString (String.mk cs)) with
  | [some y, some m] => some (y, m)
  | _ => none

/-- Line 268: the filter predicate of the start-cutoff branch. -/
def cutoff_keep (start_year start_month : Int) (d : PyDateTime) : Bool :=
  decide ((d.year : Int) > start_year ∨
    ((d.year : Int) = start_year ∧ (d.month : Int) ≥ start_month))

/-- The comparison `lambda x: x[1]` sorts by: the datetime of the pair,
represented by its order-isomorphic `key`. -/
def byKeyLe (a b : String × PyDateTime) : Prop :=
  a.2.key ≤ b.2.key

instance : DecidableRel byKeyLe := fun a b => Nat.decLe a.2.key b.2.key

instance : IsTotal (String × PyDateTime) byKeyLe :=
  ⟨fun a b => Nat.le_total a.2.key b.2.key⟩

instance : IsTrans (String × PyDateTime) byKeyLe :=
  ⟨fun _ _ _ => Nat.le_trans⟩

/-- Line 260: `media_files_with_metadata.sort(key=lambda x: x[1])`.  Python's
`list.sort` is a stable sort; any stable sort with the same comparison
computes the same list, so it is modelled by stable insertion sort. -/
def sort_by_date (l : List (String × PyDateTime)) : List (String × PyDateTime) :=
  l.insertionSort byKeyLe

/-- Lines 259-277: sorted, optionally cutoff-filtered relocation plan.
`none` models the early `return` on a malformed cutoff string.  (The source
keeps only the paths after filtering; the datetimes are carried along here so
the order can be stated, the processed paths being the `map Prod.fst`.) -/
def plan_pairs (files : List (String × PyDateTime))
    (start_year_month : Option String) : Option (List (String × PyDateTime)) :=
  let sorted := sort_by_date files
  match start_year_month with
  | none => some sorted
  | some s =>
    match parse_year_month s with
    | none => none
    | some ym => some (sorted.filter fun p => cutoff_keep ym.1 ym.2 p.2)

/-- Lines 288-291: the relocation loop over the planned paths, threading the
filesystem and collecting each file's result. -/
def run_files (env : Env) (fs : List String) (files : List String)
    (output_dir : String) (dry_run in_place : Bool) :
    List String × List (Bool × FileOutcome) :=
  match files with
  | [] => (fs, [])
  | f :: rest =>
    let r := copy_and_rename_file env fs f output_dir dry_run in_place
    let rr := run_files env r.1 rest output_dir dry_run in_place
    (rr.1, (r.2.1, r.2.2) :: rr.2)

/-- Lines 279-291: the relocation phase of `process_directory` — create the
output directory when not in dry-run mode, then process each planned file. -/
def process_relocate (env : Env) (fs : List String) (files : List String)
    (output_dir : String) (dry_run in_place : Bool) :
    List String × List (Bool × FileOutcome) :=
  let fs0 := if dry_run = false ∧ output_dir ∉ fs then fs.insert output_dir else fs
  run_files env fs0 files output_dir dry_run in_place

/-- Lines 238-297, `process_directory` after metadata collection: plan
(sort + optional cutoff), then relocate; `none` is the malformed-cutoff
abort, which relocates nothing. -/
def process_directory (env : Env) (fs : List String)
    (files_with_metadata : List (String × PyDateTime)) (output_dir : String)
    (dry_run : Bool) (start_year_month : Option String) (in_place : Bool) :
    Option (List String × List (Bool × FileOutcome)) :=
  (plan_pairs files_with_metadata start_year_month).map fun l =>
    process_relocate env fs (l.map Prod.fst) output_dir dry_run in_place

/-! ### Video capture-time resolution (`get_video_metadata`, lines 98-122) -/

def isLeapYear (y : Nat) : Bool :=
  decide ((y % 4 = 0 ∧ y % 100 ≠ 0) ∨ y % 400 = 0)

def daysInMonth (y m : Nat) : Nat :=
  if m = 2 then (if isLeapYear y then 29 else 28)
  else if m = 4 ∨ m = 6 ∨ m = 9 ∨ m = 11 then 30 else 31

/-- Leading run of ASCII digits and the remainder. -/
def splitDigits (l : List Char) : List Char × List Char :=
  (l.takeWhile Char.isDigit, l.dropWhile Char.isDigit)

/-- Model of `datetime.strptime(s, "%Y-%m-%d %H:%M:%S")`: `%Y` is exactly four
digits, the other fields one or two digits; the literal space matches a
non-empty whitespace run; the whole string must be consumed; field values must
form a constructible `datetime` (month 1-12, calendar-valid day, hour ≤ 23,
minute/second ≤ 59 — the regex tolerates leap seconds 60/61 but the
`datetime` constructor then raises, so they are rejected either way). -/
def pyStrptimeYmdHms (s : String) : Option PyDateTime :=
  let p1 := splitDigits s.toList
  match p1.2 with
  | '-' :: r2 =>
    let p2 := splitDigits r2
    match p2.2 with
    | '-' :: r4 =>
      let p3 := splitDigits r4
      match p3.2 with
      | c :: r6 =>
        if c.isWhitespace then
          let p4 := splitDigits (r6.dropWhile Char.isWhitespace)
          match p4.2 with
          | ':' :: r8 =>
            let p5 := splitDigits r8
            match p5.2 with
            | ':' :: r10 =>
              let p6 := splitDigits r10
              let y := digitsVal p1.1
              let mo := digitsVal p2.1
              let d := digitsVal p3.1
              let h := digitsVal p4.1
              let mi := digitsVal p5.1
              let sec := digitsVal p6.1
              if p6.2 = [] ∧ p1.1.length = 4 ∧
                  1 ≤ p2.1.length ∧ p2.1.length ≤ 2 ∧
                  1 ≤ p3.1.length ∧ p3.1.length ≤ 2 ∧
                  1 ≤ p4.1.length ∧ p4.1.length ≤ 2 ∧
                  1 ≤ p5.1.length ∧ p5.1.length ≤ 2 ∧
                  1 ≤ p6.1.length ∧ p6.1.length ≤ 2 ∧
                  1 ≤ y ∧ 1 ≤ mo ∧ mo ≤ 12 ∧ 1 ≤ d ∧ d ≤ daysInMonth y mo ∧
                  h ≤ 23 ∧ mi ≤ 59 ∧ sec ≤ 59 then
                some ⟨y, mo, d, h, mi, sec, 0⟩
              else none
            | _ => none
          | _ => none
        else none
      | _ => none
    | _ => none
  | _ => none

/-- Lines 110-113: when the tag value contains `'T'`, replace every `'T'` by a
space, truncate at the first `'.'`, and strip one trailing `'Z'`; values
without `'T'` are passed to `strptime` unchanged. -/
def normalize_tag_value (v : String) : String :=
  if 'T' ∈ v.toList then
    let d1 := (v.toList.map fun c => if c = 'T' then ' ' else c).takeWhile (· ≠ '.')
    if d1.getLast? = some 'Z' then String.mk d1.dropLast else String.mk d1
  else v

/-- Line 104: the fixed preference order of container tag fields. -/
def video_date_fields : List String := ["creation_time", "date", "datetime"]

/-- Lines 104-117: the tag loop — for each field in order, if present, try to
parse its (normalized) value; a `ValueError` moves on to the next field, a
success breaks out. -/
def video_date_from_tags : List String → List (String × String) → Option PyDateTime
  | [], _ => none
  | f :: rest, tags =>
    match tags.lookup f with
    | none => video_date_from_tags rest tags
    | some v =>
      match pyStrptimeYmdHms (normalize_tag_value v) with
      | some d => some d
      | none => video_date_from_tags rest tags

/-- Lines 104-122: capture time from the container tags, with fallback to the
file's last-modified time when no tag value is accepted. -/
def resolve_video_date (tags : List (String × String)) (mtime : PyDateTime) :
    PyDateTime :=
  (video_date_from_tags video_date_fields tags).getD mtime

/-- Specification-side restatement of the (amended) video date policy: of the
fields `creation_time`, `date`, `datetime` in that order, take the first whose
present tag value parses after normalization, else fall back to the
last-modified time. -/
def video_date_policy (tags : List (String × String)) (mtime : PyDateTime) :
    PyDateTime :=
  ((video_date_fields.filterMap fun f =>
      (tags.lookup f).bind fun v => pyStrptimeYmdHms (normalize_tag_value v)).head?).getD
    mtime

/-! ### Directory scanner (`find_media_files_recursively`, lines 225-235)

A directory tree is a list of entries (the children of the scanned root);
`os.walk` visits the root's file list, then recurses into each subdirectory in
order.  The source skips dot-prefixed *files* but `os.walk` still descends into
dot-prefixed *directories*. -/

inductive Entry where
  | file (name : String)
  | dir (name : String) (children : List Entry)

/-- Line 227: the supported extension set. -/
def supported_formats : List String :=
  [".jpg", ".jpeg", ".png", ".tiff", ".tif", ".bmp", ".gif", ".webp", ".heic",
   ".mov", ".mp4"]

/-- Lines 230-235: the paths yielded from one directory's own file entries. -/
def here_files (root : String) (cs : List Entry) : List String :=
  cs.filterMap fun e =>
    match e with
    | .file n =>
      if startsWithDot n then none
      else if lowerStr (pySplitext n).2 ∈ supported_formats then some (pyJoin root n)
      else none
    | .dir _ _ => none

mutual
/-- Lines 225-235: all paths the generator yields under `root` whose children
are `cs`, in `os.walk` top-down order. -/
def find_media_files_recursively (root : String) (cs : List Entry) : List String :=
  here_files root cs ++ sub_walks root cs
termination_by (sizeOf cs, 1)

/-- The recursion of `os.walk` into each subdirectory entry, in order. -/
def sub_walks (root : String) : List Entry → List String
  | [] => []
  | .file _ :: rest => sub_walks root rest
  | .dir n cs :: rest =>
    find_media_files_recursively (pyJoin root n) cs ++ sub_walks root rest
termination_by l => (sizeOf l, 0)
end

/-- The paths the scanner is supposed to reach: a non-hidden, supported file
among the children, or any path reached through a subdirectory entry —
regardless of whether the *directory* name is dot-prefixed. -/
inductive YieldsIn : String → List Entry → String → Prop
  | here {root cs n} (hm : Entry.file n ∈ cs) (hh : startsWithDot n = false)
      (hs : lowerStr (pySplitext n).2 ∈ supported_formats) :
      YieldsIn root cs (pyJoin root n)
  | sub {root cs n cs' p} (hm : Entry.dir n cs' ∈ cs)
      (hp : YieldsIn (pyJoin root n) cs' p) : YieldsIn root cs p

/-! ### Validity checker (spec §4.1) -/

/-- Read-only probe oracles for the validity checker. -/
structure CheckEnv where
  fileExists : String → Bool
  fileSize : String → Nat
  imageOpenError : String → Option String

/-- Modelled from the spec: `is_processable_media_file` — the Validity Checker
of spec §4.1 — is exercised by the repository's test suite
(`test_photo_video_renamer.py`) but missing from the provided source file.
Contract per the spec, checks in order: fails "cannot access" if the path does
not exist or cannot be opened; fails "too small" if the file size is below the
fixed minimum of 100 bytes; fails "Unsupported format" if the case-insensitive
extension is not in the supported set; for image kinds, fails with the decode
error text if the image library cannot open the file; otherwise valid.
Read-only, no side effects. -/
def is_processable_media_file (env : CheckEnv) (path : String) :
    Bool × Option String :=
  if env.fileExists path = false then (false, some "Cannot access file")
  else if env.fileSize path < 100 then (false, some "File too small")
  else if lowerStr (pySplitext path).2 ∉ supported_formats then
    (false, some "Unsupported format")
  else if lowerStr (pySplitext path).2 ∈ [".mov", ".mp4"] then (true, none)
  else
    match env.imageOpenError path with
    | some err => (false, some err)
    | none => (true, none)

/-! ### Hasher (`generate_hash`, lines 143-154)

The source feeds the file's bytes (read in 4096-byte chunks, which does not
affect the digest) into `hashlib.md5` and truncates the lowercase hex digest.
MD5 is implemented here over byte lists, with 32-bit words as `Nat` reduced
modulo `2^32`. -/

namespace MD5

def pow32 : Nat := 4294967296

def mask32 (x : Nat) : Nat := x % pow32

/-- Bitwise complement within 32 bits. -/
def compl32 (x : Nat) : Nat := Nat.xor (mask32 x) 4294967295

/-- 32-bit left rotation. -/
def rotl32 (x n : Nat) : Nat :=
  mask32 ((mask32 x) <<< n) ||| ((mask32 x) >>> (32 - n))

/-- The 64 sine-derived round constants `K[i] = floor(2^32 * |sin(i + 1)|)`. -/
def K : List Nat :=
  [0xd76aa478, 0xe8c7b756, 0x242070db, 0xc1bdceee,
   0xf57c0faf, 0x4787c62a, 0xa8304613, 0xfd469501,
   0x698098d8, 0x8b44f7af, 0xffff5bb1, 0x895cd7be,
   0x6b901122, 0xfd987193, 0xa679438e, 0x49b40821,
   0xf61e2562, 0xc040b340, 0x265e5a51, 0xe9b6c7aa,
   0xd62f105d, 0x02441453, 0xd8a1e681, 0xe7d3fbc8,
   0x21e1cde6, 0xc33707d6, 0xf4d50d87, 0x455a14ed,
   0xa9e3e905, 0xfcefa3f8, 0x676f02d9, 0x8d2a4c8a,
   0xfffa3942, 0x8771f681, 0x6d9d6122, 0xfde5380c,
   0xa4beea44, 0x4bdecfa9, 0xf6bb4b60, 0xbebfbc70,
   0x289b7ec6, 0xeaa127fa, 0xd4ef3085, 0x04881d05,
   0xd9d4d039, 0xe6db99e5, 0x1fa27cf8, 0xc4ac5665,
   0xf4292244, 0x432aff97, 0xab9423a7, 0xfc93a039,
   0x655b59c3, 0x8f0ccc92, 0xffeff47d, 0x85845dd1,
   0x6fa87e4f, 0xfe2ce6e0, 0xa3014314, 0x4e0811a1,
   0xf7537e82, 0xbd3af235, 0x2ad7d2bb, 0xeb86d391]

/-- The per-round left-rotation amounts. -/
def S : List Nat :=
  [7, 12, 17, 22, 7, 12, 17, 22, 7, 12, 17, 22, 7, 12, 17, 22,
   5, 9, 14, 20, 5, 9, 14, 20, 5, 9, 14, 20, 5, 9, 14, 20,
   4, 11, 16, 23, 4, 11, 16, 23, 4, 11, 16, 23, 4, 11, 16, 23,
   6, 10, 15, 21, 6, 10, 15, 21, 6, 10, 15, 21, 6, 10, 15, 21]

structure Regs where
  a : Nat
  b : Nat
  c : Nat
  d : Nat

def initRegs : Regs := ⟨0x67452301, 0xefcdab89, 0x98badcfe, 0x10325476⟩

/-- The sixteen little-endian 32-bit words of one 64-byte chunk. -/
def wordsOfChunk (chunk : List Nat) : List Nat :=
  (List.range 16).map fun i =>
    chunk.getD (4 * i) 0 + 256 * chunk.getD (4 * i + 1) 0 +
      65536 * chunk.getD (4 * i + 2) 0 + 16777216 * chunk.getD (4 * i + 3) 0

/-- One of the 64 MD5 rounds. -/
def md5Round (M : List Nat) (r : Regs) (i : Nat) : Regs :=
  let fg : Nat × Nat :=
    if i < 16 then ((r.b &&& r.c) ||| (compl32 r.b &&& r.d), i)
    else if i < 32 then ((r.d &&& r.b) ||| (compl32 r.d &&& r.c), (5 * i + 1) % 16)
    else if i < 48 then (Nat.xor (Nat.xor r.b r.c) r.d, (3 * i + 5) % 16)
    else (Nat.xor r.c (r.b ||| compl32 r.d), (7 * i) % 16)
  let f2 := mask32 (fg.1 + r.a + K.getD i 0 + M.getD fg.2 0)
  ⟨r.d, mask32 (r.b + rotl32 f2 (S.getD i 0)), r.b, r.c⟩

/-- Process one 64-byte chunk and add the result into the registers. -/
def processChunk (r : Regs) (chunk : List Nat) : Regs :=
  let M := wordsOfChunk chunk
  let r2 := (List.range 64).foldl (md5Round M) r
  ⟨mask32 (r.a + r2.a), mask32 (r.b + r2.b), mask32 (r.c + r2.c), mask32 (r.d + r2.d)⟩

/-- Split a byte list into 64-byte chunks. -/
def chunks64 (l : List Nat) : List (List Nat) :=
  if l = [] then [] else l.take 64 :: chunks64 (l.drop 64)
termination_by l.length
decreasing_by
  simp only [List.length_drop]
  cases l with
  | nil => simp_all
  | cons x xs => simp; omega

/-- MD5 padding: a `0x80` byte, zeros to 56 mod 64, then the original bit
length as eight little-endian bytes (mod `2^64`). -/
def padMessage (msg : List Nat) : List Nat :=
  let bitLen := (msg.length * 8) % 18446744073709551616
  let z := (120 - (msg.length + 1) % 64) % 64
  msg ++ [0x80] ++ List.replicate z 0 ++
    ((List.range 8).map fun i => (bitLen / 256 ^ i) % 256)

/-- The four bytes of a 32-bit word, little-endian. -/
def toLE4 (x : Nat) : List Nat :=
  [x % 256, x / 256 % 256, x / 65536 % 256, x / 16777216 % 256]

/-- The 16-byte MD5 digest of a byte list. -/
def digestBytes (msg : List Nat) : List Nat :=
  let r := (chunks64 (padMessage msg)).foldl processChunk initRegs
  toLE4 r.a ++ toLE4 r.b ++ toLE4 r.c ++ toLE4 r.d

def hexDigitChar : Nat → Char
  | 0 => '0' | 1 => '1' | 2 => '2' | 3 => '3' | 4 => '4' | 5 => '5' | 6 => '6'
  | 7 => '7' | 8 => '8' | 9 => '9' | 10 => 'a' | 11 => 'b' | 12 => 'c'
  | 13 => 'd' | 14 => 'e' | _ => 'f'

/-- `hashlib.md5(...).hexdigest()` as a character list: two lowercase hex
digits per digest byte. -/
def hexdigest (msg : List Nat) : List Char :=
  (digestBytes msg).foldr
    (fun b acc => hexDigitChar (b / 16) :: hexDigitChar (b % 16) :: acc) []

end MD5

/-- File-reading oracle for the hasher: `none` models any I/O failure while
opening or reading the file (the `except` branch of `generate_hash`). -/
structure HashEnv where
  readBytes : String → Option (List Nat)

/-- Lines 143-154, `generate_hash`: the first `length` (default 8) characters
of the lowercase hex MD5 digest of the bytes read, or the sentinel
`"00000000"` on any I/O failure.  Reading in 4096-byte chunks feeds the same
byte stream to the digest, so the model hashes the whole byte list. -/
def generate_hash (env : HashEnv) (file_path : String) (length : Nat := 8) :
    String :=
  match env.readBytes file_path with
  | none => "00000000"
  | some bytes => String.mk ((MD5.hexdigest bytes).take length)

/-! ### Demonstration inputs used by the witness theorems -/

def demoDT : PyDateTime := ⟨2023, 12, 25, 14, 30, 45, 123400⟩

def demoEnvC1 : Env where
  metadata := fun p => if p = "src/photo.JPG" then some (demoDT, 640, 480) else none
  fileHash := fun _ => "abcd1234"
  copyOk := fun _ _ => true
  moveOk := fun _ _ => true

def demoMay : PyDateTime := ⟨2023, 5, 1, 0, 0, 0, 0⟩

def demoJuly : PyDateTime := ⟨2023, 7, 4, 12, 0, 0, 0⟩

def demoMixed : List (String × PyDateTime) :=
  [("july.jpg", demoJuly), ("may.jpg", demoMay)]

def demoEnvC3 : Env where
  metadata := fun p =>
    if p = "src/a.jpg" then some (demoMay, 100, 100)
    else if p = "src/b.jpg" then some (demoJuly, 200, 100) else none
  fileHash := fun p => if p = "src/a.jpg" then "11112222" else "33334444"
  copyOk := fun _ _ => true
  moveOk := fun _ _ => true

def demoCheckSmall : CheckEnv where
  fileExists := fun _ => true
  fileSize := fun _ => 5
  imageOpenError := fun _ => none

def demoCheckSmallOther : CheckEnv where
  fileExists := fun _ => true
  fileSize := fun _ => 5
  imageOpenError := fun _ => some "cannot identify image file"

def demoCheckMissing : CheckEnv where
  fileExists := fun _ => false
  fileSize := fun _ => 0
  imageOpenError := fun _ => none

def demoEnvC10 : Env where
  metadata := fun p => if p = "p.jpg" then some (⟨2020, 1, 2, 3, 4, 5, 0⟩, 10, 20) else none
  fileHash := fun _ => "beefcafe"
  copyOk := fun _ _ => true
  moveOk := fun _ _ => true

def demoMtime : PyDateTime := ⟨1970, 1, 1, 0, 0, 0, 0⟩

def demoJulyPlan : List (String × PyDateTime) := [("july.jpg", demoJuly)]

/-! ### Helper lemmas: decimal renderings and string assembly -/

theorem toDigitsCore_digits (f : Nat) :
    ∀ (n : Nat) (acc : List Char), (∀ c ∈ acc, c.isDigit = true) →
      ∀ c ∈ Nat.toDigitsCore 10 f n acc, c.isDigit = true := by
  induction f with
  | zero => intro n acc hacc; simpa [Nat.toDigitsCore] using hacc
  | succ f ih =>
    intro n acc hacc
    have hd : (Nat.digitChar (n % 10)).isDigit = true := by
      have h10 : n % 10 < 10 := Nat.mod_lt _ (by omega)
      revert h10
      generalize n % 10 = m
      intro h10
      interval_cases m <;> decide
    have hacc2 : ∀ c ∈ Nat.digitChar (n % 10) :: acc, c.isDigit = true := by
      intro c hc
      rcases List.mem_cons.mp hc with rfl | hc
      · exact hd
      · exact hacc c hc
    simp only [Nat.toDigitsCore]
    split
    · exact hacc2
    · exact ih (n / 10) _ hacc2

theorem natRepr_digits (n : Nat) : ∀ c ∈ (toString n).toList, c.isDigit = true := by
  intro c hc
  exact toDigitsCore_digits (n + 1) n [] (by simp) c hc

theorem toDigitsCore_ne_nil (f : Nat) :
    ∀ (n : Nat) (acc : List Char), f ≠ 0 ∨ acc ≠ [] →
      Nat.toDigitsCore 10 f n acc ≠ [] := by
  induction f with
  | zero =>
    intro n acc h
    rcases h with h | h
    · exact absurd rfl h
    · simpa [Nat.toDigitsCore] using h
  | succ f ih =>
    intro n acc _
    simp only [Nat.toDigitsCore]
    split
    · simp
    · exact ih (n / 10) _ (Or.inr (by simp))

theorem natRepr_ne_nil (n : Nat) : (toString n).toList ≠ [] :=
  toDigitsCore_ne_nil (n + 1) n [] (Or.inl (by omega))

theorem natRepr_toList_length (n : Nat) :
    (toString n).toList.length = (toString n : String).length := rfl

theorem zfill_toList (w : Nat) (s : String) :
    (zfill w s).toList = List.replicate (w - s.toList.length) '0' ++ s.toList := by
  unfold zfill
  split
  next h =>
    have hss : s.toList.length = s.length := rfl
    have h0 : w - s.toList.length = 0 := by omega
    rw [h0]
    rfl
  next h =>
    show (String.mk _ ++ s).data = _
    rw [String.data_append]
    rfl

theorem zfill_length (w : Nat) (s : String) :
    (zfill w s).toList.length = max w s.toList.length := by
  rw [zfill_toList]
  simp only [List.length_append, List.length_replicate]
  omega

/-- A left-zero-padded decimal rendering keeps its width when the value fits. -/
theorem zfill_natRepr_length (w n : Nat) (hw : 0 < w) (hn : n < 10 ^ w) :
    (zfill w (toString n)).toList.length = w := by
  have hle : (toString n : String).length ≤ w := Nat.repr_length n w hw hn
  have h2 : (toString n).toList.length ≤ w := by rw [natRepr_toList_length]; exact hle
  rw [zfill_length]
  omega

theorem zfill_natRepr_digits (w n : Nat) :
    ∀ c ∈ (zfill w (toString n)).toList, c.isDigit = true := by
  intro c hc
  rw [zfill_toList] at hc
  rcases List.mem_append.mp hc with hc | hc
  · have := List.eq_of_mem_replicate hc
    subst this; decide
  · exact natRepr_digits n c hc

theorem getLast?_mem {l : List Char} {c : Char} (h : l.getLast? = some c) : c ∈ l := by
  cases l with
  | nil => simp at h
  | cons x xs =>
    have := List.getLast?_eq_getLast (x :: xs) (by simp)
    rw [this] at h
    injection h with h
    subst h
    exact List.getLast_mem _

theorem endsWithSlash_zfill_natRepr (w n : Nat) :
    endsWithSlash (zfill w (toString n)) = false := by
  unfold endsWithSlash
  simp only [decide_eq_false_iff_not]
  intro h
  have hmem := getLast?_mem h
  have := zfill_natRepr_digits w n _ hmem
  simp at this

theorem string_append_data (a b : String) : (a ++ b).toList = a.toList ++ b.toList :=
  String.data_append a b

theorem pyJoin_eq (a b : String) (ha : a ≠ "") (ha2 : endsWithSlash a = false) :
    pyJoin a b = a ++ "/" ++ b := by
  simp [pyJoin, ha, ha2]

theorem append_toList_ne_nil (a b : String) (hb : b.toList ≠ []) :
    (a ++ b).toList ≠ [] := by
  rw [string_append_data]
  intro h
  exact hb (List.append_eq_nil.mp h).2

theorem ne_empty_of_toList_ne_nil (s : String) (h : s.toList ≠ []) : s ≠ "" := by
  intro he
  subst he
  simp at h

theorem endsWithSlash_append (a b : String) (hb : b.toList ≠ []) :
    endsWithSlash (a ++ b) = endsWithSlash b := by
  unfold endsWithSlash
  rw [string_append_data, List.getLast?_append]
  cases hx : b.toList.getLast? with
  | none => exact absurd (List.getLast?_eq_none_iff.mp hx) hb
  | some c => rfl

/-- The collision loop is the identity whenever its candidate path does not
exist: the `while` condition fails on entry. -/
theorem collision_loop_not_mem (fs : List String) (a b : String)
    (fuel counter : Nat) (p : String) (hp : p ∉ fs) :
    collision_loop fs a b fuel counter p = p := by
  cases fuel <;> simp [collision_loop, hp]

/-- C10: the counter-suffix collision loop in `copy_and_rename_file` is
unreachable — whenever control reaches it the computed destination does not
exist (the exists-check would have returned the success-skip otherwise), so
the loop body never executes and every file that is copied or moved (or
previewed, or fails mid-operation) is addressed at exactly the canonical
computed destination path, never at a counter-suffixed variant. -/
theorem collision_suffix_unreachable (env : Env) (fs : List String)
    (file_path output_dir : String) (dry_run in_place : Bool) (d : String)
    (h : (copy_and_rename_file env fs file_path output_dir dry_run in_place).2.2 =
        FileOutcome.copied d ∨
      (copy_and_rename_file env fs file_path output_dir dry_run in_place).2.2 =
        FileOutcome.moved d ∨
      (copy_and_rename_file env fs file_path output_dir dry_run in_place).2.2 =
        FileOutcome.wouldCopy d ∨
      (copy_and_rename_file env fs file_path output_dir dry_run in_place).2.2 =
        FileOutcome.wouldMove d ∨
      (copy_and_rename_file env fs file_path output_dir dry_run in_place).2.2 =
        FileOutcome.copyError d ∨
      (copy_and_rename_file env fs file_path output_dir dry_run in_place).2.2 =
        FileOutcome.moveError d) :
    computed_dest env file_path output_dir = some d := by
  unfold copy_and_rename_file at h
  unfold computed_dest
  cases hm : env.metadata file_path with
  | none => rw [hm] at h; simp at h
  | some m =>
    obtain ⟨t, w, ht⟩ := m
    rw [hm] at h
    simp only [Option.map_some']
    by_cases hmem :
        pyJoin (structured_dir output_dir t)
          (new_filename t w ht (env.fileHash file_path)
            (lowerStr (pySplitext (basename file_path)).2)) ∈ fs
    · simp only [hmem, if_true] at h
      rcases h with h | h | h | h | h | h <;> simp at h
    · simp only [hmem, if_false] at h
      rw [collision_loop_not_mem fs _ _ _ _ _ hmem] at h
      cases dry_run <;> cases in_place <;>
        simp only [Bool.false_eq_true, if_true, if_false, reduceIte] at h
      · split at h <;>
          · rcases h with h | h | h | h | h | h <;> simp_all
      · split at h <;>
          · rcases h with h | h | h | h | h | h <;> simp_all
      · rcases h with h | h | h | h | h | h <;> simp_all
      · rcases h with h | h | h | h | h | h <;> simp_all

/-- Witness for C10 at a concrete input: the file is copied, and it lands at
the canonical computed destination. -/
theorem collision_suffix_unreachable_witness :
    computed_dest demoEnvC10 "p.jpg" "out" =
      some "out/2020/January/2020-01-02_03.04.05.0000_10x20_beefcafe.jpg" := by
  have h := collision_suffix_unreachable demoEnvC10 [] "p.jpg" "out" false false
    "out/2020/January/2020-01-02_03.04.05.0000_10x20_beefcafe.jpg"
    (Or.inl (by decide))
  exact h

/-- In dry-run mode a single file changes nothing in the filesystem. -/
theorem crf_dry_fs (env : Env) (fs : List String) (p out : String) (ip : Bool) :
    (copy_and_rename_file env fs p out true ip).1 = fs := by
  unfold copy_and_rename_file
  cases hm : env.metadata p with
  | none => rfl
  | some m =>
    obtain ⟨t, w, h⟩ := m
    simp only
    split
    · rfl
    · rfl

/-- In dry-run mode the whole relocation loop changes nothing. -/
theorem run_files_dry_fs (env : Env) (fs : List String) (files : List String)
    (out : String) (ip : Bool) :
    (run_files env fs files out true ip).1 = fs := by
  induction files generalizing fs with
  | nil => rfl
  | cons f rest ih =>
    show (run_files env fs (f :: rest) out true ip).1 = fs
    rw [run_files]
    simp only
    rw [ih, crf_dry_fs]

/-- The per-file decision (destination and chosen operation) is the same in
dry-run and live mode. -/
theorem crf_dry_action (env : Env) (fs : List String) (p out : String) (ip : Bool) :
    ((copy_and_rename_file env fs p out true ip).2.2).action =
      ((copy_and_rename_file env fs p out false ip).2.2).action := by
  unfold copy_and_rename_file
  cases hm : env.metadata p with
  | none => rfl
  | some m =>
    obtain ⟨t, w, h⟩ := m
    simp only
    by_cases hmem :
        pyJoin (structured_dir out t)
          (new_filename t w h (env.fileHash p)
            (lowerStr (pySplitext (basename p)).2)) ∈ fs
    · simp [hmem]
    · simp only [hmem, if_false, reduceIte]
      cases ip
      · cases hc : env.copyOk p (collision_loop fs
            (pySplitext (pyJoin (structured_dir out t)
              (new_filename t w h (env.fileHash p)
                (lowerStr (pySplitext (basename p)).2)))).1
            (lowerStr (pySplitext (basename p)).2) (fs.length + 1) 1
            (pyJoin (structured_dir out t)
              (new_filename t w h (env.fileHash p)
                (lowerStr (pySplitext (basename p)).2)))) <;>
          simp [hc, FileOutcome.action]
      · cases hc : env.moveOk p (collision_loop fs
            (pySplitext (pyJoin (structured_dir out t)
              (new_filename t w h (env.fileHash p)
                (lowerStr (pySplitext (basename p)).2)))).1
            (lowerStr (pySplitext (basename p)).2) (fs.length + 1) 1
            (pyJoin (structured_dir out t)
              (new_filename t w h (env.fileHash p)
                (lowerStr (pySplitext (basename p)).2)))) <;>
          simp [hc, FileOutcome.action]

/-- C7: in dry-run mode the pipeline performs no filesystem mutation — neither
per file, nor across the whole relocation phase (including the output
directory creation step) — while the computed destination path and the chosen
operation (copy, move or skip) for each file are identical to what the same
input produces in live mode. -/
theorem dry_run_is_faithful_preview (env : Env) (fs : List String)
    (file_path output_dir : String) (in_place : Bool) (files : List String) :
    (copy_and_rename_file env fs file_path output_dir true in_place).1 = fs ∧
      ((copy_and_rename_file env fs file_path output_dir true in_place).2.2).action =
        ((copy_and_rename_file env fs file_path output_dir false in_place).2.2).action ∧
      (process_relocate env fs files output_dir true in_place).1 = fs := by
  refine ⟨crf_dry_fs env fs file_path output_dir in_place,
    crf_dry_action env fs file_path output_dir in_place, ?_⟩
  unfold process_relocate
  simp only [Bool.true_eq_false, false_and, if_false, reduceIte]
  exact run_files_dry_fs env fs files output_dir in_place

theorem zfill_natRepr_ne_nil (w n : Nat) : (zfill w (toString n)).toList ≠ [] := by
  rw [zfill_toList]
  intro h
  exact natRepr_ne_nil n (List.append_eq_nil.mp h).2

theorem monthName_facts (m : Nat) (h1 : 1 ≤ m) (h2 : m ≤ 12) :
    (monthName m).toList ≠ [] ∧ endsWithSlash (monthName m) = false := by
  interval_cases m <;> exact ⟨by decide, by decide⟩

/-- C1: for every file whose metadata resolves to timestamp `t`, width `w` and
height `h`, whose content hash is `hx`, and whose lower-cased extension is
`.e`, the computed destination path (lines 157-184) is
`<output_dir>/<YYYY>/<MonthName>/<stem>.e`, the stem being `t` formatted as
`YYYY-MM-DD_HH.MM.SS` followed by a dot and exactly the first 4 digits of the
microsecond value zero-padded to 6 digits, then `_WxH_hx`; the year field has
exactly 4 characters, the other date/time fields exactly 2, and the
microsecond fragment is exactly 4 decimal digits. -/
theorem destination_path_formula (env : Env) (file_path output_dir : String)
    (t : PyDateTime) (w h : Nat) (hx e : String)
    (hm : env.metadata file_path = some (t, w, h))
    (hhx : env.fileHash file_path = hx)
    (he : lowerStr (pySplitext (basename file_path)).2 = "." ++ e)
    (hv : t.Valid)
    (ho1 : output_dir ≠ "") (ho2 : endsWithSlash output_dir = false) :
    computed_dest env file_path output_dir =
      some (output_dir ++ "/" ++ zfill 4 (toString t.year) ++ "/" ++
        monthName t.month ++ "/" ++
        zfill 4 (toString t.year) ++ "-" ++ zfill 2 (toString t.month) ++ "-" ++
        zfill 2 (toString t.day) ++ "_" ++ zfill 2 (toString t.hour) ++ "." ++
        zfill 2 (toString t.minute) ++ "." ++ zfill 2 (toString t.second) ++ "." ++
        take_slice (zfill 6 (toString t.microsecond)) 4 ++ "_" ++
        toString w ++ "x" ++ toString h ++ "_" ++ hx ++ "." ++ e) ∧
      (zfill 4 (toString t.year)).toList.length = 4 ∧
      (zfill 2 (toString t.month)).toList.length = 2 ∧
      (zfill 2 (toString t.day)).toList.length = 2 ∧
      (zfill 2 (toString t.hour)).toList.length = 2 ∧
      (zfill 2 (toString t.minute)).toList.length = 2 ∧
      (zfill 2 (toString t.second)).toList.length = 2 ∧
      (take_slice (zfill 6 (toString t.microsecond)) 4).toList.length = 4 ∧
      (∀ c ∈ (take_slice (zfill 6 (toString t.microsecond)) 4).toList,
        c.isDigit = true) := by
  obtain ⟨hy1, hy2, hmo1, hmo2, hd1, hd2, hh2, hmi2, hs2, hu2⟩ := hv
  have h104 : (10 : Nat) ^ 4 = 10000 := by norm_num
  have h102 : (10 : Nat) ^ 2 = 100 := by norm_num
  have h106 : (10 : Nat) ^ 6 = 1000000 := by norm_num
  have hu6 : (zfill 6 (toString t.microsecond)).toList.length = 6 :=
    zfill_natRepr_length 6 t.microsecond (by omega) (by omega)
  refine ⟨?_, zfill_natRepr_length 4 t.year (by omega) (by omega),
    zfill_natRepr_length 2 t.month (by omega) (by omega),
    zfill_natRepr_length 2 t.day (by omega) (by omega),
    zfill_natRepr_length 2 t.hour (by omega) (by omega),
    zfill_natRepr_length 2 t.minute (by omega) (by omega),
    zfill_natRepr_length 2 t.second (by omega) (by omega), ?_, ?_⟩
  · have hYnil := zfill_natRepr_ne_nil 4 t.year
    have hYslash := endsWithSlash_zfill_natRepr 4 t.year
    obtain ⟨hMnil, hMslash⟩ := monthName_facts t.month hmo1 hmo2
    have hA : pyJoin output_dir (zfill 4 (toString t.year)) =
        output_dir ++ "/" ++ zfill 4 (toString t.year) := pyJoin_eq _ _ ho1 ho2
    have hAne : output_dir ++ "/" ++ zfill 4 (toString t.year) ≠ "" :=
      ne_empty_of_toList_ne_nil _ (append_toList_ne_nil _ _ hYnil)
    have hAslash :
        endsWithSlash (output_dir ++ "/" ++ zfill 4 (toString t.year)) = false := by
      rw [endsWithSlash_append _ _ hYnil]
      exact hYslash
    have hB : pyJoin (output_dir ++ "/" ++ zfill 4 (toString t.year))
        (monthName t.month) =
        output_dir ++ "/" ++ zfill 4 (toString t.year) ++ "/" ++ monthName t.month :=
      pyJoin_eq _ _ hAne hAslash
    have hBne :
        output_dir ++ "/" ++ zfill 4 (toString t.year) ++ "/" ++ monthName t.month ≠ "" :=
      ne_empty_of_toList_ne_nil _ (append_toList_ne_nil _ _ hMnil)
    have hBslash : endsWithSlash
        (output_dir ++ "/" ++ zfill 4 (toString t.year) ++ "/" ++ monthName t.month) =
        false := by
      rw [endsWithSlash_append _ _ hMnil]
      exact hMslash
    unfold computed_dest
    rw [hm]
    simp only [Option.map_some']
    rw [hhx, he]
    unfold structured_dir
    rw [hA, hB, pyJoin_eq _ _ hBne hBslash]
    unfold new_filename date_str strftime_stem
    simp only [String.append_assoc]
  · show ((zfill 6 (toString t.microsecond)).toList.take 4).length = 4
    rw [List.length_take, hu6]
    decide
  · intro c hc
    exact zfill_natRepr_digits 6 t.microsecond c (List.take_subset 4 _ hc)

/-- Witness for C1 at a concrete input: a 640x480 image captured
2023-12-25 14:30:45.123400 with hash `abcd1234` and extension `.JPG`. -/
theorem destination_path_formula_witness :
    computed_dest demoEnvC1 "src/photo.JPG" "out" =
      some "out/2023/December/2023-12-25_14.30.45.1234_640x480_abcd1234.jpg" := by
  have h := destination_path_formula demoEnvC1 "src/photo.JPG" "out" demoDT 640 480
    "abcd1234" "jpg" (by decide) rfl (by decide) (by decide) (by decide) (by decide)
  rw [h.1]
  decide

/-- C2: for every input batch of candidate files with pairwise distinct
resolved capture timestamps, the order in which the batch orchestrator
relocates files — the planned list after the sort of line 260 and the optional
cutoff filter — is strictly increasing by captured-at timestamp, regardless of
the order in which the scanner yielded the paths (the statement holds for
every input list, i.e. every scan order). -/
theorem relocation_order_chronological (files : List (String × PyDateTime))
    (cutoff : Option String) (l : List (String × PyDateTime))
    (hv : ∀ p ∈ files, p.2.Valid)
    (hd : files.Pairwise (fun a b => a.2 ≠ b.2))
    (hp : plan_pairs files cutoff = some l) :
    l.Pairwise (fun a b => a.2.lexLt b.2) := by
  have hperm : (sort_by_date files).Perm files := List.perm_insertionSort byKeyLe files
  have hsorted : (sort_by_date files).Pairwise byKeyLe :=
    List.sorted_insertionSort byKeyLe files
  have hvs : ∀ p ∈ sort_by_date files, p.2.Valid := fun p hps =>
    hv p (hperm.mem_iff.mp hps)
  have hds : (sort_by_date files).Pairwise (fun a b => a.2 ≠ b.2) :=
    (hperm.pairwise_iff fun hab => Ne.symm hab).mpr hd
  have hmain : (sort_by_date files).Pairwise (fun a b => a.2.lexLt b.2) := by
    refine List.Pairwise.imp_of_mem ?_ (hsorted.and hds)
    intro a b ha hb hab
    obtain ⟨hle, hne⟩ := hab
    have hle' : a.2.key ≤ b.2.key := hle
    have hva := hvs a ha
    have hvb := hvs b hb
    have hklt : a.2.key < b.2.key := by
      rcases Nat.lt_or_ge a.2.key b.2.key with hlt | hge
      · exact hlt
      · exact absurd (PyDateTime.key_inj hva hvb (Nat.le_antisymm hle' hge)) hne
    exact (PyDateTime.key_lt_iff_lexLt hva hvb).mp hklt
  unfold plan_pairs at hp
  cases cutoff with
  | none =>
    simp only [Option.some.injEq] at hp
    rw [← hp]
    exact hmain
  | some s =>
    simp only [] at hp
    cases hps : parse_year_month s with
    | none => rw [hps] at hp; simp at hp
    | some ym =>
      rw [hps] at hp
      simp only [Option.some.injEq] at hp
      rw [← hp]
      exact hmain.filter _

/-- Witness for C2: two files scanned in anti-chronological order are planned
in strictly increasing timestamp order. -/
theorem relocation_order_chronological_witness :
    plan_pairs demoMixed none = some [("may.jpg", demoMay), ("july.jpg", demoJuly)] ∧
      List.Pairwise (fun a b => PyDateTime.lexLt a.2 b.2)
        [("may.jpg", demoMay), ("july.jpg", demoJuly)] := by
  have h1 : plan_pairs demoMixed none =
      some [("may.jpg", demoMay), ("july.jpg", demoJuly)] := by decide
  exact ⟨h1, relocation_order_chronological demoMixed none _
    (by decide) (by decide) h1⟩

/-- C4: when a start cutoff string is supplied: if it parses as
`<year>/<month>` with two integer fields, the relocation set retains exactly
the entries whose resolved timestamp is at or after the first moment of that
month (same year with month ≥ cutoff month, or any later year); if the cutoff
string is malformed, the whole run aborts with an error (`none`) and no file
is relocated. -/
theorem cutoff_filter_correct (files : List (String × PyDateTime)) (s : String) :
    (∀ y m, parse_year_month s = some (y, m) →
      ∃ l, plan_pairs files (some s) = some l ∧
        ∀ p, p ∈ l ↔ p ∈ files ∧
          ((p.2.year : Int) > y ∨ ((p.2.year : Int) = y ∧ (p.2.month : Int) ≥ m))) ∧
      (parse_year_month s = none →
        plan_pairs files (some s) = none ∧
        ∀ env fs output_dir dry ip,
          process_directory env fs files output_dir dry (some s) ip = none) := by
  constructor
  · intro y m hps
    refine ⟨(sort_by_date files).filter (fun p => cutoff_keep y m p.2), ?_, ?_⟩
    · unfold plan_pairs
      simp only []
      rw [hps]
    · intro p
      rw [List.mem_filter]
      have hperm := List.perm_insertionSort byKeyLe files
      constructor
      · rintro ⟨hmem, hkeep⟩
        refine ⟨hperm.mem_iff.mp hmem, ?_⟩
        unfold cutoff_keep at hkeep
        simpa using hkeep
      · rintro ⟨hmem, hcond⟩
        refine ⟨hperm.mem_iff.mpr hmem, ?_⟩
        unfold cutoff_keep
        simpa using hcond
  · intro hps
    have hplan : plan_pairs files (some s) = none := by
      unfold plan_pairs
      simp only []
      rw [hps]
    refine ⟨hplan, ?_⟩
    intro env fs output_dir dry ip
    unfold process_directory
    rw [hplan]
    rfl

/-- Witness for C4: cutoff `2023/06` over a batch with one 2023-05 file and
one 2023-07 file retains exactly the July file, and a malformed cutoff aborts
the run. -/
theorem cutoff_filter_correct_witness :
    plan_pairs demoMixed (some "2023/06") = some demoJulyPlan ∧
      ("july.jpg", demoJuly) ∈ demoJulyPlan ∧
      ("may.jpg", demoMay) ∉ demoJulyPlan ∧
      plan_pairs demoMixed (some "2023-06") = none ∧
      process_directory demoEnvC3 [] demoMixed "out" false (some "2023-06") false =
        none := by
  obtain ⟨l, hl, hmem⟩ :=
    (cutoff_filter_correct demoMixed "2023/06").1 2023 6 (by decide)
  have hplan : plan_pairs demoMixed (some "2023/06") = some demoJulyPlan := by decide
  have hln : l = demoJulyPlan := by
    rw [hplan] at hl
    exact (Option.some.inj hl).symm
  obtain ⟨hbad, hrun⟩ := (cutoff_filter_correct demoMixed "2023-06").2 (by decide)
  refine ⟨hplan, ?_, ?_, hbad, hrun demoEnvC3 [] "out" false false⟩
  · exact hln ▸ (hmem _).mpr ⟨by decide, by decide⟩
  · intro hmay
    exact absurd ((hmem _).mp (hln ▸ hmay)).2 (by decide)

/-- Copy mode only ever adds paths: the filesystem after one file contains
everything it contained before. -/
theorem crf_copy_superset (env : Env) (fs : List String) (p out : String)
    (x : String) (hx : x ∈ fs) :
    x ∈ (copy_and_rename_file env fs p out false false).1 := by
  unfold copy_and_rename_file
  cases hm : env.metadata p with
  | none => exact hx
  | some m =>
    obtain ⟨t, w, h⟩ := m
    simp only
    split
    · exact hx
    · by_cases hc : env.copyOk p (collision_loop fs
          (pySplitext (pyJoin (structured_dir out t)
            (new_filename t w h (env.fileHash p)
              (lowerStr (pySplitext (basename p)).2)))).1
          (lowerStr (pySplitext (basename p)).2) (fs.length + 1) 1
          (pyJoin (structured_dir out t)
            (new_filename t w h (env.fileHash p)
              (lowerStr (pySplitext (basename p)).2)))) = true
      · simp only [hc, if_true, reduceIte]
        exact List.mem_insert_of_mem (List.mem_insert_of_mem hx)
      · simp only [hc, if_false, reduceIte]
        exact List.mem_insert_of_mem hx

/-- After a file is processed in copy mode with a succeeding copy operation,
its computed destination exists. -/
theorem crf_copy_dest_mem (env : Env) (fs : List String) (p out d : String)
    (hd : computed_dest env p out = some d)
    (hcopy : ∀ a b, env.copyOk a b = true) :
    d ∈ (copy_and_rename_file env fs p out false false).1 := by
  unfold computed_dest at hd
  unfold copy_and_rename_file
  cases hm : env.metadata p with
  | none => rw [hm] at hd; simp at hd
  | some m =>
    obtain ⟨t, w, h⟩ := m
    rw [hm] at hd
    simp only [Option.map_some', Option.some.injEq] at hd
    subst hd
    simp only
    by_cases hmem :
        pyJoin (structured_dir out t)
          (new_filename t w h (env.fileHash p)
            (lowerStr (pySplitext (basename p)).2)) ∈ fs
    · simp only [hmem, if_true]
    · simp only [hmem, if_false, reduceIte]
      rw [collision_loop_not_mem fs _ _ _ _ _ hmem]
      simp only [hcopy, if_true, reduceIte]
      exact List.mem_insert_self _ _

/-- If a file's computed destination already exists, `copy_and_rename_file`
takes the skip branch: success, `skippedExists`, no state change. -/
theorem crf_skip_of_mem (env : Env) (fs : List String) (p out d : String)
    (dry ip : Bool) (hd : computed_dest env p out = some d) (hmem : d ∈ fs) :
    copy_and_rename_file env fs p out dry ip =
      (fs, true, FileOutcome.skippedExists d) := by
  unfold computed_dest at hd
  unfold copy_and_rename_file
  cases hm : env.metadata p with
  | none => rw [hm] at hd; simp at hd
  | some m =>
    obtain ⟨t, w, h⟩ := m
    rw [hm] at hd
    simp only [Option.map_some', Option.some.injEq] at hd
    subst hd
    simp [hmem]

/-- The relocation loop in copy mode only ever adds paths. -/
theorem run_files_copy_superset (env : Env) (fs : List String)
    (files : List String) (out : String) (x : String) (hx : x ∈ fs) :
    x ∈ (run_files env fs files out false false).1 := by
  induction files generalizing fs with
  | nil => exact hx
  | cons f rest ih =>
    show x ∈ (run_files env fs (f :: rest) out false false).1
    rw [run_files]
    exact ih _ (crf_copy_superset env fs f out x hx)

/-- After the relocation loop in copy mode with succeeding copies, every
processed file's computed destination exists. -/
theorem run_files_dest_mem (env : Env) (fs : List String)
    (files : List String) (out : String)
    (hcopy : ∀ a b, env.copyOk a b = true) :
    ∀ f ∈ files, ∀ d, computed_dest env f out = some d →
      d ∈ (run_files env fs files out false false).1 := by
  induction files generalizing fs with
  | nil => intro f hf; cases hf
  | cons g rest ih =>
    intro f hf d hd
    show d ∈ (run_files env fs (g :: rest) out false false).1
    rw [run_files]
    rcases List.mem_cons.mp hf with rfl | hf
    · exact run_files_copy_superset env _ rest out d
        (crf_copy_dest_mem env fs f out d hd hcopy)
    · exact ih _ f hf d hd

/-- When every file's computed destination already exists, the relocation loop
changes nothing, reports every file as `skippedExists`, and counts every file
as a success. -/
theorem run_files_all_skip (env : Env) (fs : List String)
    (files : List String) (out : String)
    (hmeta : ∀ f ∈ files, ∃ d, computed_dest env f out = some d ∧ d ∈ fs) :
    (run_files env fs files out false false).1 = fs ∧
      (run_files env fs files out false false).2.length = files.length ∧
      ∀ r ∈ (run_files env fs files out false false).2,
        r.1 = true ∧ ∃ d, r.2 = FileOutcome.skippedExists d := by
  induction files generalizing fs with
  | nil => exact ⟨rfl, rfl, by intro r hr; cases hr⟩
  | cons f rest ih =>
    obtain ⟨d, hd, hdm⟩ := hmeta f (by simp)
    have hstep := crf_skip_of_mem env fs f out d false false hd hdm
    obtain ⟨h1, h2, h3⟩ := ih fs fun g hg => hmeta g (List.mem_cons_of_mem _ hg)
    rw [run_files, hstep]
    refine ⟨h1, by simp [h2], ?_⟩
    intro r hr
    rcases List.mem_cons.mp hr with rfl | hr
    · exact ⟨rfl, d, rfl⟩
    · exact h3 r hr

/-- When the output directory already exists and the run is live, the
relocation phase is just the file loop. -/
theorem process_relocate_out_mem (env : Env) (fs : List String)
    (files : List String) (out : String) (h : out ∈ fs) :
    process_relocate env fs files out false false =
      run_files env fs files out false false := by
  unfold process_relocate
  rw [if_neg (by simp [h])]

/-- C3: running the batch twice on the same unchanged inputs with the same
destination is idempotent — after the first run every file's computed
destination path already exists, so on the second run every file takes the
skip branch (reported as already existing, counted as success) and the second
run leaves the filesystem exactly as the first run left it: nothing is
created, overwritten or removed. -/
theorem batch_rerun_idempotent (env : Env) (fs : List String)
    (files : List String) (out : String)
    (hmeta : ∀ f ∈ files, (env.metadata f).isSome = true)
    (hcopy : ∀ a b, env.copyOk a b = true) :
    (process_relocate env (process_relocate env fs files out false false).1
        files out false false).1 =
      (process_relocate env fs files out false false).1 ∧
      (process_relocate env (process_relocate env fs files out false false).1
        files out false false).2.length = files.length ∧
      ∀ r ∈ (process_relocate env (process_relocate env fs files out false false).1
          files out false false).2,
        r.1 = true ∧ ∃ d, r.2 = FileOutcome.skippedExists d := by
  have hout1 : out ∈ (process_relocate env fs files out false false).1 := by
    unfold process_relocate
    by_cases ho : out ∈ fs
    · rw [if_neg (by simp [ho])]
      exact run_files_copy_superset env fs files out out ho
    · rw [if_pos ⟨rfl, ho⟩]
      exact run_files_copy_superset env (List.insert out fs) files out out
        (List.mem_insert_self _ _)
  have hdests : ∀ f ∈ files, ∃ d, computed_dest env f out = some d ∧
      d ∈ (process_relocate env fs files out false false).1 := by
    intro f hf
    obtain ⟨m, hm⟩ := Option.isSome_iff_exists.mp (hmeta f hf)
    have hdef : computed_dest env f out =
        some (pyJoin (structured_dir out m.1)
          (new_filename m.1 m.2.1 m.2.2 (env.fileHash f)
            (lowerStr (pySplitext (basename f)).2))) := by
      unfold computed_dest
      rw [hm]
      rfl
    refine ⟨_, hdef, ?_⟩
    unfold process_relocate
    exact run_files_dest_mem env _ files out hcopy f hf _ hdef
  rw [process_relocate_out_mem env
    (process_relocate env fs files out false false).1 files out hout1]
  exact run_files_all_skip env _ files out hdests

/-- Witness for C3: two concrete files copied once; the second run leaves the
filesystem unchanged and reports both files as already existing. -/
theorem batch_rerun_idempotent_witness :
    (process_relocate demoEnvC3
        (process_relocate demoEnvC3 [] ["src/a.jpg", "src/b.jpg"] "out" false false).1
        ["src/a.jpg", "src/b.jpg"] "out" false false).1 =
      (process_relocate demoEnvC3 [] ["src/a.jpg", "src/b.jpg"] "out" false false).1 ∧
      (process_relocate demoEnvC3
        (process_relocate demoEnvC3 [] ["src/a.jpg", "src/b.jpg"] "out" false false).1
        ["src/a.jpg", "src/b.jpg"] "out" false false).2 =
      [(true, FileOutcome.skippedExists
          "out/2023/May/2023-05-01_00.00.00.0000_100x100_11112222.jpg"),
       (true, FileOutcome.skippedExists
          "out/2023/July/2023-07-04_12.00.00.0000_200x100_33334444.jpg")] := by
  refine ⟨(batch_rerun_idempotent demoEnvC3 [] ["src/a.jpg", "src/b.jpg"] "out"
    (by decide) (fun a b => rfl)).1, ?_⟩
  decide

/-- C5: a candidate file whose size is below the fixed 100-byte minimum is
rejected with the "too small" reason before any metadata extraction (image
decode or video probe) is attempted — the checker's verdict is independent of
the image-decode oracle — and a nonexistent path is rejected with the
"cannot access" reason. -/
theorem validity_checker_early_rejects (env env2 : CheckEnv) (path : String)
    (hex : env2.fileExists path = env.fileExists path)
    (hsz : env2.fileSize path = env.fileSize path) :
    (env.fileExists path = false →
      is_processable_media_file env path = (false, some "Cannot access file") ∧
      is_processable_media_file env2 path = (false, some "Cannot access file")) ∧
      (env.fileExists path = true → env.fileSize path < 100 →
        is_processable_media_file env path = (false, some "File too small") ∧
        is_processable_media_file env2 path = (false, some "File too small")) := by
  constructor
  · intro hne
    have hne2 : env2.fileExists path = false := hex.trans hne
    constructor
    · unfold is_processable_media_file
      simp [hne]
    · unfold is_processable_media_file
      simp [hne2]
  · intro hg hlt
    have hg2 : env2.fileExists path = true := hex.trans hg
    have hlt2 : env2.fileSize path < 100 := by rw [hsz]; exact hlt
    constructor
    · unfold is_processable_media_file
      simp [hg, hlt]
    · unfold is_processable_media_file
      simp [hg2, hlt2]

/-- Witness for C5: a 5-byte file is rejected "too small" under two
environments that differ only in the image-decode oracle, and a missing path
is rejected "cannot access". -/
theorem validity_checker_early_rejects_witness :
    is_processable_media_file demoCheckSmall "x.jpg" =
      (false, some "File too small") ∧
      is_processable_media_file demoCheckSmallOther "x.jpg" =
        (false, some "File too small") ∧
      is_processable_media_file demoCheckMissing "y.jpg" =
        (false, some "Cannot access file") := by
  obtain ⟨hs1, hs2⟩ :=
    (validity_checker_early_rejects demoCheckSmall demoCheckSmallOther "x.jpg"
      rfl rfl).2 rfl (by decide)
  exact ⟨hs1, hs2,
    ((validity_checker_early_rejects demoCheckMissing demoCheckMissing "y.jpg"
      rfl rfl).1 rfl).1⟩

/-- Every output character of the hex-digit table is a lowercase hex digit. -/
theorem hexDigitChar_mem (n : Nat) :
    MD5.hexDigitChar n ∈ "0123456789abcdef".toList := by
  unfold MD5.hexDigitChar
  split <;> decide

theorem hexdigest_chars (bs : List Nat) :
    ∀ c ∈ MD5.hexdigest bs, c ∈ "0123456789abcdef".toList := by
  intro c hc
  unfold MD5.hexdigest at hc
  generalize MD5.digestBytes bs = l at hc
  induction l with
  | nil => cases hc
  | cons b rest ih =>
    simp only [List.foldr] at hc
    rcases List.mem_cons.mp hc with rfl | hc
    · exact hexDigitChar_mem _
    rcases List.mem_cons.mp hc with rfl | hc
    · exact hexDigitChar_mem _
    · exact ih hc

theorem foldr_hexpair_length (l : List Nat) :
    (l.foldr
      (fun b acc => MD5.hexDigitChar (b / 16) :: MD5.hexDigitChar (b % 16) :: acc)
      []).length = 2 * l.length := by
  induction l with
  | nil => rfl
  | cons b rest ih =>
    simp only [List.foldr, List.length_cons, ih]
    omega

theorem digestBytes_length (bs : List Nat) : (MD5.digestBytes bs).length = 16 := by
  unfold MD5.digestBytes
  simp [MD5.toLE4]

theorem hexdigest_length (bs : List Nat) : (MD5.hexdigest bs).length = 32 := by
  unfold MD5.hexdigest
  rw [foldr_hexpair_length, digestBytes_length]

/-- C6: for every path the hasher either returns the first 8 hexadecimal
characters of the MD5 digest of the bytes read — an 8-character string over
the lowercase hex alphabet — or, on any I/O failure, returns exactly the
sentinel `"00000000"`; it is a total function, so no error ever propagates to
its caller. -/
theorem hash_first8_or_sentinel (env : HashEnv) (p : String) :
    (∃ bs, env.readBytes p = some bs ∧
      generate_hash env p = String.mk ((MD5.hexdigest bs).take 8) ∧
      (generate_hash env p).toList.length = 8 ∧
      ∀ c ∈ (generate_hash env p).toList, c ∈ "0123456789abcdef".toList) ∨
    (env.readBytes p = none ∧ generate_hash env p = "00000000") := by
  cases hb : env.readBytes p with
  | none =>
    refine Or.inr ⟨rfl, ?_⟩
    unfold generate_hash
    rw [hb]
  | some bs =>
    have hl : (generate_hash env p).toList = (MD5.hexdigest bs).take 8 := by
      unfold generate_hash
      rw [hb]
      rfl
    refine Or.inl ⟨bs, rfl, ?_, ?_, ?_⟩
    · unfold generate_hash
      rw [hb]
    · rw [hl, List.length_take, hexdigest_length]
      decide
    · intro c hc
      rw [hl] at hc
      exact hexdigest_chars bs c (List.take_subset _ _ hc)

/-- The tag loop of `get_video_metadata` equals "first accepted value over the
field list, in order". -/
theorem video_date_loop_eq_policy (fields : List String)
    (tags : List (String × String)) :
    video_date_from_tags fields tags =
      (fields.filterMap fun f =>
        (tags.lookup f).bind fun v =>
          pyStrptimeYmdHms (normalize_tag_value v)).head? := by
  induction fields with
  | nil => rfl
  | cons f rest ih =>
    unfold video_date_from_tags
    cases hl : tags.lookup f with
    | none => simp [hl, ih]
    | some v =>
      cases hp : pyStrptimeYmdHms (normalize_tag_value v) with
      | none => simp [hl, hp, ih]
      | some d => simp [hl, hp]

/-- C8 (amended): the video metadata resolver checks the container tag fields
`creation_time`, `date`, `datetime` in that fixed preference order and
resolves to the first present tag value that parses: values containing `'T'`
are normalized first (each `'T'` replaced by a space, truncated at the first
`'.'` — i.e. to whole seconds — and one trailing `'Z'` stripped), while
values without `'T'` are parsed as plain `YYYY-MM-DD HH:MM:SS` unchanged, so
space-separated timestamps are accepted as well as ISO-like T-separated
ones; when no tag value is accepted it falls back to the file's
last-modified time. -/
theorem video_capture_time_policy (tags : List (String × String))
    (mtime : PyDateTime) :
    resolve_video_date tags mtime =
      (((["creation_time", "date", "datetime"] : List String).filterMap fun f =>
        (tags.lookup f).bind fun v =>
          pyStrptimeYmdHms (normalize_tag_value v)).head?).getD mtime := by
  unfold resolve_video_date
  rw [video_date_loop_eq_policy]
  rfl

/-- C8 counterexample: a `creation_time` value in plain space-separated form —
containing no `'T'`, hence not matching the claimed ISO-like T-separated
pattern — is nevertheless accepted as the capture time rather than the
resolver falling back to the last-modified time. -/
theorem video_accepts_space_separated :
    resolve_video_date [("creation_time", "2023-12-25 14:30:45")] demoMtime =
      ⟨2023, 12, 25, 14, 30, 45, 0⟩ ∧
      ¬ ('T' ∈ "2023-12-25 14:30:45".toList) ∧
      demoMtime ≠ ⟨2023, 12, 25, 14, 30, 45, 0⟩ := by
  refine ⟨by decide, by decide, by decide⟩

theorem mem_here_files (root : String) (cs : List Entry) (p : String) :
    p ∈ here_files root cs ↔ ∃ n, Entry.file n ∈ cs ∧ startsWithDot n = false ∧
      lowerStr (pySplitext n).2 ∈ supported_formats ∧ p = pyJoin root n := by
  unfold here_files
  rw [List.mem_filterMap]
  constructor
  · rintro ⟨e, he, hfe⟩
    cases e with
    | dir n cs2 => simp at hfe
    | file n =>
      by_cases h1 : startsWithDot n = true
      · simp [h1] at hfe
      · have h1f : startsWithDot n = false := by simpa using h1
        by_cases h2 : lowerStr (pySplitext n).2 ∈ supported_formats
        · refine ⟨n, he, h1f, h2, ?_⟩
          simp [h1f, h2] at hfe
          exact hfe.symm
        · simp [h1f, h2] at hfe
  · rintro ⟨n, hn, h1, h2, rfl⟩
    exact ⟨Entry.file n, hn, by simp [h1, h2]⟩

theorem mem_sub_walks (root : String) (cs : List Entry) (p : String) :
    p ∈ sub_walks root cs ↔ ∃ n cs2, Entry.dir n cs2 ∈ cs ∧
      p ∈ find_media_files_recursively (pyJoin root n) cs2 := by
  induction cs with
  | nil => simp [sub_walks]
  | cons e rest ih =>
    cases e with
    | file n =>
      rw [show sub_walks root (Entry.file n :: rest) = sub_walks root rest
        from by rw [sub_walks]]
      rw [ih]
      constructor
      · rintro ⟨m, cs2, hm, hp⟩
        exact ⟨m, cs2, List.mem_cons_of_mem _ hm, hp⟩
      · rintro ⟨m, cs2, hm, hp⟩
        rcases List.mem_cons.mp hm with heq | hm
        · cases heq
        · exact ⟨m, cs2, hm, hp⟩
    | dir n cs2 =>
      rw [show sub_walks root (Entry.dir n cs2 :: rest) =
          find_media_files_recursively (pyJoin root n) cs2 ++ sub_walks root rest
        from by rw [sub_walks]]
      rw [List.mem_append, ih]
      constructor
      · rintro (hp | ⟨m, cs3, hm, hp⟩)
        · exact ⟨n, cs2, List.mem_cons_self _ _, hp⟩
        · exact ⟨m, cs3, List.mem_cons_of_mem _ hm, hp⟩
      · rintro ⟨m, cs3, hm, hp⟩
        rcases List.mem_cons.mp hm with heq | hm
        · injection heq with h1 h2
          subst h1; subst h2
          exact Or.inl hp
        · exact Or.inr ⟨m, cs3, hm, hp⟩

theorem mem_find_media_aux (N : Nat) :
    ∀ (cs : List Entry), sizeOf cs ≤ N → ∀ (root p : String),
      (p ∈ find_media_files_recursively root cs ↔ YieldsIn root cs p) := by
  induction N with
  | zero =>
    intro cs h
    cases cs <;> simp at h
  | succ N ih =>
    intro cs hcs root p
    rw [show find_media_files_recursively root cs =
        here_files root cs ++ sub_walks root cs
      from by rw [find_media_files_recursively]]
    rw [List.mem_append, mem_here_files, mem_sub_walks]
    constructor
    · rintro (⟨n, hn, h1, h2, rfl⟩ | ⟨n, cs2, hn, hp⟩)
      · exact YieldsIn.here hn h1 h2
      · have hlt := List.sizeOf_lt_of_mem hn
        have hspec : sizeOf (Entry.dir n cs2) = 1 + sizeOf n + sizeOf cs2 := by
          simp
        have hsz : sizeOf cs2 ≤ N := by omega
        exact YieldsIn.sub hn ((ih cs2 hsz (pyJoin root n) p).mp hp)
    · intro hy
      cases hy with
      | here hm hh hs => exact Or.inl ⟨_, hm, hh, hs, rfl⟩
      | @sub _ _ n cs2 _ hm hp =>
        have hlt := List.sizeOf_lt_of_mem hm
        have hspec : sizeOf (Entry.dir n cs2) = 1 + sizeOf n + sizeOf cs2 := by
          simp
        have hsz : sizeOf cs2 ≤ N := by omega
        exact Or.inr ⟨n, cs2, hm, (ih cs2 hsz (pyJoin root n) p).mpr hp⟩

/-- C9 (amended): the scanner yields exactly the files reachable under the
root — through subdirectories of any name, including dot-prefixed (hidden)
directories, since `os.walk` is not pruned — whose own filename does not start
with the hidden-file marker `'.'` and whose extension, compared
case-insensitively, is in the supported set. -/
theorem scanner_yields_iff (root : String) (cs : List Entry) (p : String) :
    p ∈ find_media_files_recursively root cs ↔ YieldsIn root cs p :=
  mem_find_media_aux (sizeOf cs) cs (Nat.le_refl _) root p

/-- C9 counterexample: a supported, non-dot-prefixed file inside a
dot-prefixed (hidden) directory is yielded, so a path containing a
hidden-named component is yielded, contrary to the claim. -/
theorem scanner_yields_hidden_dir_file :
    find_media_files_recursively "root"
        [Entry.dir ".hidden" [Entry.file "a.jpg"]] =
      ["root/.hidden/a.jpg"] ∧ startsWithDot ".hidden" = true := by
  constructor
  · simp only [find_media_files_recursively, sub_walks, here_files]
    decide
  · rfl

end PVR
